import Mathlib

/-!
Verification development for the mem0-ts Supabase vector-store adapter
(`src/mem0-ts/src/oss/src/vector_stores/supabase.ts`).

The adapter (`SupabaseDB`) wraps a Postgres/PostgREST backend whose schema
and ranking function (`match_vectors`) are documented in the SQL migration
comment of the same source file (lines 33-76).  We model the backend table
as a list of rows (insertion order = backend default order) and each
PostgREST / RPC call the adapter issues as a function on that table,
following the backend-boundary contract of the specification (section 6)
and the SQL text embedded in the source.  Metadata values are restricted
to JSON scalars, which is all the adapter's own behaviour depends on.

Timestamps: the adapter stamps `new Date().toISOString()`; we thread the
clock reading through as an explicit `now : String` argument.

Similarity: the SQL uses the pgvector cosine-distance operator `<=>`,
which the spec treats as backend-owned; we pass it in as an explicit
`dist` function argument, and the model keeps the SQL's shape
(`similarity = 1 - dist`, rows ordered by ascending `dist`).
-/

namespace Mem0Supabase

/-- JSON scalar values stored in a record's metadata (`Record<string, any>`
in the source, restricted to scalars, which is all the adapter inspects). -/
inductive JValue where
  | str (s : String)
  | num (n : Int)
  | bool (b : Bool)
  | null
deriving DecidableEq, Repr

/-- JSON object: association list, first binding of a key wins. -/
abbrev Metadata := List (String × JValue)

/-- First value bound to `key`, if any. -/
def lookupKey : Metadata → String → Option JValue
  | [], _ => none
  | (k, v) :: rest, key => if k = key then some v else lookupKey rest key

/-- JavaScript object spread followed by one explicit key, as in
`\x7b...payload, created_at: ts\x7d`: the key's binding is overwritten in
place when present, appended at the end otherwise. -/
def setKey : Metadata → String → JValue → Metadata
  | [], k, v => [(k, v)]
  | (k', v') :: rest, k, v =>
    if k' = k then (k, v) :: rest else (k', v') :: setKey rest k v

/-- Row of the backend table (`memories` in the SQL migration):
primary key `id`, vector column, jsonb metadata column.  The embedding
and metadata column names are configurable in the source (defaults
`embedding` / `metadata`); the model fixes the two columns structurally. -/
structure VectorRecord where
  id : String
  embedding : List ℚ
  metadata : Metadata
deriving DecidableEq, Repr

/-- Backend table state: rows in backend default order. -/
abbrev Table := List VectorRecord

/-- Normalized result returned to callers (`VectorStoreResult` in
`../types`): `get`/`list` omit the score, `search` sets it. -/
structure VectorStoreResult where
  id : String
  payload : Metadata
  score : Option ℚ
deriving DecidableEq, Repr

/-- Row shape returned by the `match_vectors` RPC
(`VectorSearchResult` in the source). -/
structure VectorSearchResult where
  id : String
  similarity : ℚ
  metadata : Metadata
deriving DecidableEq, Repr

/-! ## Backend primitives (PostgREST calls issued by the adapter) -/

/-- PostgREST `.delete().eq("id", v)`: removes every row whose id equals
`v`; deleting zero rows is not an error. -/
def sbDeleteEqId (t : Table) (v : String) : Table :=
  t.filter (fun r => !decide (r.id = v))

/-- PostgREST `.delete().neq("id", v)`: removes every row whose id
differs from `v` (used by `deleteCol` with `v = ""`). -/
def sbDeleteNeqId (t : Table) (v : String) : Table :=
  t.filter (fun r => decide (r.id = v))

/-- PostgREST `.insert(rows)`: appends the rows; the `id text primary key`
constraint of the documented schema rejects the batch when an inserted id
already exists or repeats within the batch. -/
def sbInsertRows (t : Table) (rows : List VectorRecord) : Except String Table :=
  if rows.any (fun r => t.any (fun s => decide (s.id = r.id))) then
    Except.error "duplicate key value violates unique constraint"
  else if (rows.map (fun r => r.id)).Nodup then
    Except.ok (t ++ rows)
  else
    Except.error "duplicate key value violates unique constraint"

/-- PostgREST `.select("*").eq("id", v)`: the matching rows, state
unchanged (a SELECT writes nothing). -/
def sbSelectEqId (t : Table) (v : String) : List VectorRecord × Table :=
  (t.filter (fun r => decide (r.id = v)), t)

/-- PostgREST `.update(fields).eq("id", v)`: overwrites the embedding and
metadata columns of every row whose id equals `v`; matching zero rows is
not an error. -/
def sbUpdateEqId (t : Table) (v : String) (emb : List ℚ) (md : Metadata) : Table :=
  t.map (fun r =>
    if r.id = v then { r with embedding := emb, metadata := md } else r)

/-- jsonb containment `metadata @> filter` from the `match_vectors` SQL,
restricted to scalar values: every key/value pair of the filter occurs in
the metadata. -/
def metadataContains (m filter : Metadata) : Bool :=
  filter.all (fun kv => decide (lookupKey m kv.1 = some kv.2))

/-- Conjunction of PostgREST `.eq("metadata->>key", value)` clauses built
by `list` (one per filter entry): each filter key's value must equal the
metadata's value at that key (a missing key extracts NULL and matches
nothing). -/
def matchesEqFilters (filters : Metadata) (m : Metadata) : Bool :=
  filters.all (fun kv => decide (lookupKey m kv.1 = some kv.2))

/-- Body of the `match_vectors` SQL function from the migration comment:
keep all rows when the filter is the empty object, otherwise the rows
whose metadata contains the filter; order by distance to the query
ascending; cap at `match_count`; report `1 - distance` as similarity. -/
def matchVectors (dist : List ℚ → List ℚ → ℚ) (t : Table) (queryEmbedding : List ℚ)
    (matchCount : Nat) (filter : Metadata) : List VectorSearchResult :=
  let rows := if filter.isEmpty then t
    else t.filter (fun r => metadataContains r.metadata filter)
  let ranked := rows.mergeSort
    (fun a b => decide (dist a.embedding queryEmbedding ≤ dist b.embedding queryEmbedding))
  (ranked.take matchCount).map
    (fun r => ⟨r.id, 1 - dist r.embedding queryEmbedding, r.metadata⟩)

/-- RPC call `client.rpc("match_vectors", params)`: the `filter` parameter
defaults to the empty jsonb object when absent (`filter jsonb default
'\x7b\x7d'::jsonb` in the SQL); a SELECT-only function, state unchanged. -/
def sbRpcMatchVectors (dist : List ℚ → List ℚ → ℚ) (t : Table) (queryEmbedding : List ℚ)
    (matchCount : Nat) (filter : Option Metadata) : List VectorSearchResult × Table :=
  (matchVectors dist t queryEmbedding matchCount (filter.getD []), t)

/-- PostgREST `.select("*", count exact).limit(limit)` with the `.eq`
filter chain of `list`: data is the filtered rows capped at `limit`, the
count is the total number of filtered rows ignoring the limit. -/
def sbSelectFiltered (t : Table) (filters : Option Metadata) (limit : Nat) :
    (List VectorRecord × Nat) × Table :=
  let matched := match filters with
    | none => t
    | some fs => t.filter (fun r => matchesEqFilters fs r.metadata)
  ((matched.take limit, matched.length), t)

/-! ## Adapter methods (`SupabaseDB`, lines 78-338 of the source) -/

namespace SupabaseDB

/-- Method `insert(vectors, ids, payloads)` (lines 179-201): build one row
per index, stamping `created_at` with the current time into the payload,
and submit the batch in a single backend insert. -/
def insert (t : Table) (vectors : List (List ℚ)) (ids : List String)
    (payloads : List Metadata) (now : String) : Except String Table :=
  let data := (vectors.zip (ids.zip payloads)).map
    (fun vip => VectorRecord.mk vip.2.1 vip.1 (setKey vip.2.2 "created_at" (JValue.str now)))
  sbInsertRows t data

/-- Method `search(query, limit = 5, filters?)` (lines 203-233): pass the
filter to the RPC only when present (`if (filters)`; note any object,
including the empty one, is truthy in JavaScript), map the ranked rows to
results with the similarity as score.  A null/empty RPC result maps to
the empty list. -/
def search (dist : List ℚ → List ℚ → ℚ) (t : Table) (query : List ℚ)
    (limit : Nat := 5) (filters : Option Metadata := none) :
    List VectorStoreResult × Table :=
  let rpcFilter : Option Metadata := if filters.isSome then filters else none
  let res := sbRpcMatchVectors dist t query limit rpcFilter
  (res.1.map (fun r => VectorStoreResult.mk r.id r.metadata (some r.similarity)), res.2)

/-- Method `get(vectorId)` (lines 235-254): select the row with the given
id; absent row yields a null result (spec section 4.4: absence is a valid
terminal state, not an error; the backend's `.single()` is modelled per
the spec's backend boundary as returning the unique matching row when one
exists and no data otherwise). -/
def get (t : Table) (vectorId : String) : Option VectorStoreResult × Table :=
  let sel := sbSelectEqId t vectorId
  (sel.1.head?.map (fun d => VectorStoreResult.mk d.id d.metadata none), sel.2)

/-- Method `update(vectorId, vector, payload)` (lines 256-278): wholesale
replace embedding and metadata of the matching row, stamping `updated_at`
into the new payload; matching nothing is a silent no-op. -/
def update (t : Table) (vectorId : String) (vector : List ℚ)
    (payload : Metadata) (now : String) : Table :=
  sbUpdateEqId t vectorId vector (setKey payload "updated_at" (JValue.str now))

/-- Method `delete(vectorId)` (lines 280-292). -/
def delete (t : Table) (vectorId : String) : Table :=
  sbDeleteEqId t vectorId

/-- Method `deleteCol()` (lines 294-306): `.delete().neq("id", "")`,
intended to delete all rows. -/
def deleteCol (t : Table) : Table :=
  sbDeleteNeqId t ""

/-- Method `list(filters?, limit = 100)` (lines 308-338): filtered select
with exact count; rows map to results without score. -/
def list (t : Table) (filters : Option Metadata := none) (limit : Nat := 100) :
    (List VectorStoreResult × Nat) × Table :=
  let sel := sbSelectFiltered t filters limit
  ((sel.1.1.map (fun d => VectorStoreResult.mk d.id d.metadata none), sel.1.2), sel.2)

/-- Sentinel embedding used by the bootstrap probe:
`Array(1536).fill(0)` (line 99). -/
def testVector : List ℚ :=
  List.replicate 1536 0

/-- Sentinel record inserted by the bootstrap probe (lines 105-112):
reserved id `test_vector`, zero embedding, empty metadata. -/
def testRecord : VectorRecord :=
  VectorRecord.mk "test_vector" testVector []

/-- Error message thrown when the bootstrap test insert fails
(lines 116-166), written as the template literal's constant chunks
around the `tableName` interpolation; the long SQL migration text that
follows in the source is abbreviated to its header line. -/
def vectorOpsFailedMessage (tableName : String) : String :=
  "Vector operations failed. Please ensure:\n1. The " ++ "vector extension" ++
  " is enabled\n2. The table \"" ++ tableName ++
  "\" exists with correct schema\n3. The " ++ "match_vectors" ++
  " function is created\n\nRUN THE FOLLOWING SQL IN YOUR SUPABASE SQL EDITOR\n\nSee the SQL migration instructions in the code comments."

/-- Method `initialize()` (lines 96-177, renamed since `initialize` is not
usable as a plain name here): best-effort delete of the sentinel, then a
test insert whose backend outcome is abstracted by `schemaOk`
(the insert succeeds exactly when the extension/table/function
prerequisites are in place); on test failure raise the descriptive
configuration error, on success delete the sentinel and report the
resulting state ready. -/
def initializeAdapter (schemaOk : Bool) (tableName : String) (t : Table) :
    Except String Table :=
  let t1 := sbDeleteEqId t "test_vector"
  let testInsert : Except String Table :=
    if schemaOk then sbInsertRows t1 [testRecord]
    else Except.error "backend insert failed"
  match testInsert with
  | Except.error _ => Except.error (vectorOpsFailedMessage tableName)
  | Except.ok t2 => Except.ok (sbDeleteEqId t2 "test_vector")

end SupabaseDB

/-! ## Helper lemmas -/

theorem lookupKey_setKey_self (m : Metadata) (k : String) (v : JValue) :
    lookupKey (setKey m k v) k = some v := by
  induction m with
  | nil => simp [setKey, lookupKey]
  | cons kv rest ih =>
    obtain ⟨k', v'⟩ := kv
    by_cases h : k' = k
    · simp [setKey, h, lookupKey]
    · simp [setKey, h, lookupKey, ih]

theorem lookupKey_setKey_ne (m : Metadata) (k k' : String) (v : JValue) (h : k' ≠ k) :
    lookupKey (setKey m k v) k' = lookupKey m k' := by
  have hk : k ≠ k' := Ne.symm h
  induction m with
  | nil => simp [setKey, lookupKey, hk]
  | cons kv rest ih =>
    obtain ⟨a, b⟩ := kv
    by_cases ha : a = k
    · subst ha
      simp [setKey, lookupKey, hk]
    · simp [setKey, ha, lookupKey, ih]

theorem filter_id_eq_nil (t : Table) (id0 : String) (h : ∀ r ∈ t, r.id ≠ id0) :
    t.filter (fun r => decide (r.id = id0)) = [] :=
  List.filter_eq_nil_iff.mpr (fun a ha => by simp [h a ha])

theorem sbInsertRows_ok (t : Table) (rows : List VectorRecord) (t' : Table)
    (h : sbInsertRows t rows = Except.ok t') :
    t' = t ++ rows ∧ ∀ r ∈ rows, ∀ s ∈ t, s.id ≠ r.id := by
  unfold sbInsertRows at h
  split at h
  · exact absurd h (by simp)
  next hcontains =>
    split at h
    · refine ⟨(Except.ok.inj h).symm, ?_⟩
      simp only [List.any_eq_true, decide_eq_true_eq, not_exists, not_and] at hcontains
      intro r hr s hs he
      exact absurd rfl (he ▸ hcontains r hr s hs)
    · exact absurd h (by simp)

theorem matchVectors_nil (dist : List ℚ → List ℚ → ℚ) (q : List ℚ) (n : Nat)
    (f : Metadata) : matchVectors dist [] q n f = [] := by
  by_cases hf : f.isEmpty <;> simp [matchVectors, hf]

theorem filterMap_score_map (l : List VectorSearchResult) :
    (l.map (fun r => VectorStoreResult.mk r.id r.metadata (some r.similarity))).filterMap
      (fun r => r.score) = l.map (fun r => r.similarity) := by
  induction l with
  | nil => rfl
  | cons a l ih => simp [List.filterMap_cons, ih]

theorem sbUpdate_get_head (id0 : String) (v2 : List ℚ) (md : Metadata) :
    ∀ t : Table, (∃ r ∈ t, r.id = id0) →
      ((sbUpdateEqId t id0 v2 md).filter (fun r => decide (r.id = id0))).head? =
        some (VectorRecord.mk id0 v2 md)
  | [], hex => by
    obtain ⟨r, hr, _⟩ := hex
    cases hr
  | r :: rest, hex => by
    by_cases hr : r.id = id0
    · have hrec : ({ r with embedding := v2, metadata := md } : VectorRecord) =
          VectorRecord.mk id0 v2 md := by
        cases r
        simp_all
      simp [sbUpdateEqId, hr, hrec]
    · obtain ⟨r0, hr0, hid⟩ := hex
      have hmem : r0 ∈ rest := by
        rcases List.mem_cons.mp hr0 with h | h
        · exact absurd (h ▸ hid) hr
        · exact h
      have ih := sbUpdate_get_head id0 v2 md rest ⟨r0, hmem, hid⟩
      simpa [sbUpdateEqId, hr] using ih

theorem matchVectors_similarity_sorted (dist : List ℚ → List ℚ → ℚ) (t : Table)
    (q : List ℚ) (n : Nat) (f : Metadata) :
    List.Pairwise (fun a b : ℚ => b ≤ a)
      ((matchVectors dist t q n f).map (fun r => r.similarity)) := by
  have htrans : ∀ a b c : VectorRecord,
      (decide (dist a.embedding q ≤ dist b.embedding q)) = true →
      (decide (dist b.embedding q ≤ dist c.embedding q)) = true →
      (decide (dist a.embedding q ≤ dist c.embedding q)) = true := by
    intro a b c hab hbc
    simp only [decide_eq_true_eq] at hab hbc ⊢
    exact le_trans hab hbc
  have htotal : ∀ a b : VectorRecord,
      ((decide (dist a.embedding q ≤ dist b.embedding q)) ||
        (decide (dist b.embedding q ≤ dist a.embedding q))) = true := by
    intro a b
    simp only [Bool.or_eq_true, decide_eq_true_eq]
    exact le_total _ _
  unfold matchVectors
  simp only [List.map_map]
  refine List.pairwise_map.mpr ?_
  have hsorted := List.sorted_mergeSort htrans htotal
    (if f.isEmpty then t else t.filter (fun r => metadataContains r.metadata f))
  have hsorted' := List.Pairwise.sublist (List.take_sublist n _) hsorted
  refine hsorted'.imp ?_
  intro a b hab
  simp only [decide_eq_true_eq] at hab
  exact sub_le_sub_left hab 1

/-! ## Claims -/

/-- C1: for every valid (vector, id, payload) triple (one the backend accepts, i.e.
the id is fresh), insert of the single triple followed by get(id) returns a result
whose id is the requested id and whose payload equals the inserted payload plus an
added created_at field stamped with the insert-time clock reading. -/
theorem insert_get_roundtrip (t : Table) (v : List ℚ) (id0 : String) (p : Metadata)
    (now : String) (t' : Table)
    (hins : SupabaseDB.insert t [v] [id0] [p] now = Except.ok t') :
    ∃ res : VectorStoreResult,
      (SupabaseDB.get t' id0).1 = some res ∧
      res.id = id0 ∧
      lookupKey res.payload "created_at" = some (JValue.str now) ∧
      ∀ k, k ≠ "created_at" → lookupKey res.payload k = lookupKey p k := by
  have hins' : sbInsertRows t
      [VectorRecord.mk id0 v (setKey p "created_at" (JValue.str now))] =
      Except.ok t' := hins
  obtain ⟨ht', hfresh⟩ := sbInsertRows_ok _ _ _ hins'
  refine ⟨VectorStoreResult.mk id0 (setKey p "created_at" (JValue.str now)) none,
    ?_, rfl, lookupKey_setKey_self _ _ _, fun k hk => lookupKey_setKey_ne _ _ _ _ hk⟩
  have hnil : t.filter (fun r => decide (r.id = id0)) = [] :=
    filter_id_eq_nil t id0 (fun s hs =>
      hfresh (VectorRecord.mk id0 v (setKey p "created_at" (JValue.str now)))
        (by simp) s hs)
  subst ht'
  simp [SupabaseDB.get, sbSelectEqId, List.filter_append, hnil]

/-- C2: get on an id with no matching record yields a null result; in the model a
read has no failure outcome, so absence is a terminal state rather than an error. -/
theorem get_missing_id_null (t : Table) (id0 : String)
    (habs : ∀ r ∈ t, r.id ≠ id0) :
    (SupabaseDB.get t id0).1 = none := by
  simp [SupabaseDB.get, sbSelectEqId, filter_id_eq_nil t id0 habs]

theorem get_missing_id_null_witness :
    (SupabaseDB.get [VectorRecord.mk "a" [1] []] "b").1 = none :=
  get_missing_id_null _ _ (by decide)

theorem insert_get_roundtrip_witness :
    ∃ res : VectorStoreResult,
      (SupabaseDB.get
          [VectorRecord.mk "a" [1]
            [("u", JValue.num 7), ("created_at", JValue.str "T")]] "a").1 = some res ∧
      res.id = "a" ∧
      lookupKey res.payload "created_at" = some (JValue.str "T") ∧
      ∀ k, k ≠ "created_at" →
        lookupKey res.payload k = lookupKey [("u", JValue.num 7)] k :=
  insert_get_roundtrip [] [1] "a" [("u", JValue.num 7)] "T"
    [VectorRecord.mk "a" [1] [("u", JValue.num 7), ("created_at", JValue.str "T")]] rfl

/-- C3 counterexample: deleteCol issues delete-where-id-not-equal-empty-string, so a
record whose id is the empty string survives it, and a subsequent unfiltered list
does not return the empty sequence with count 0. -/
theorem deleteCol_empty_id_counterexample :
    (SupabaseDB.list (SupabaseDB.deleteCol [VectorRecord.mk "" [1] []]) none 100).1 ≠
      (([] : List VectorStoreResult), 0) := by
  decide

/-- C3 amended: provided no stored record has the empty string as id, after
deleteCol the collection contains no records at all: the post-state is empty and
list with no filter and any limit returns the empty sequence with total count 0. -/
theorem deleteCol_clears_all_amended (t : Table) (L : Nat)
    (h : ∀ r ∈ t, r.id ≠ "") :
    SupabaseDB.deleteCol t = [] ∧
    (SupabaseDB.list (SupabaseDB.deleteCol t) none L).1 =
      (([] : List VectorStoreResult), 0) := by
  have hd : SupabaseDB.deleteCol t = [] :=
    List.filter_eq_nil_iff.mpr (fun a ha => by simp [h a ha])
  exact ⟨hd, by rw [hd]; simp [SupabaseDB.list, sbSelectFiltered]⟩

theorem deleteCol_clears_all_amended_witness :
    SupabaseDB.deleteCol [VectorRecord.mk "a" [1] []] = [] ∧
    (SupabaseDB.list (SupabaseDB.deleteCol [VectorRecord.mk "a" [1] []]) none 100).1 =
      (([] : List VectorStoreResult), 0) :=
  deleteCol_clears_all_amended [VectorRecord.mk "a" [1] []] 100 (by decide)

/-- C4: update on an existing id wholesale replaces embedding and metadata: get then
returns a result whose payload is exactly the new payload plus the updated_at stamp,
so every field of the original payload not present in the new one is gone. -/
theorem update_replaces_not_merges (t : Table) (id0 : String) (v2 : List ℚ)
    (p2 : Metadata) (now : String) (hex : ∃ r ∈ t, r.id = id0) :
    ∃ res : VectorStoreResult,
      (SupabaseDB.get (SupabaseDB.update t id0 v2 p2 now) id0).1 = some res ∧
      res.id = id0 ∧
      lookupKey res.payload "updated_at" = some (JValue.str now) ∧
      ∀ k, k ≠ "updated_at" → lookupKey res.payload k = lookupKey p2 k := by
  refine ⟨VectorStoreResult.mk id0 (setKey p2 "updated_at" (JValue.str now)) none,
    ?_, rfl, lookupKey_setKey_self _ _ _, fun k hk => lookupKey_setKey_ne _ _ _ _ hk⟩
  have h := sbUpdate_get_head id0 v2 (setKey p2 "updated_at" (JValue.str now)) t hex
  simp [SupabaseDB.get, SupabaseDB.update, sbSelectEqId, h]

theorem update_replaces_not_merges_witness :
    ∃ res : VectorStoreResult,
      (SupabaseDB.get
          (SupabaseDB.update [VectorRecord.mk "a" [1] [("old", JValue.num 1)]]
            "a" [2] [("nw", JValue.str "y")] "T2") "a").1 = some res ∧
      res.id = "a" ∧
      lookupKey res.payload "updated_at" = some (JValue.str "T2") ∧
      ∀ k, k ≠ "updated_at" →
        lookupKey res.payload k = lookupKey [("nw", JValue.str "y")] k :=
  update_replaces_not_merges [VectorRecord.mk "a" [1] [("old", JValue.num 1)]]
    "a" [2] [("nw", JValue.str "y")] "T2"
    ⟨VectorRecord.mk "a" [1] [("old", JValue.num 1)], by decide, rfl⟩

/-- C5: search with the empty-object filter and search with the filter absent return
identical results on every state: the adapter passes the empty object through (any
object is truthy in JavaScript) and the SQL treats the empty filter as match-all,
exactly as it treats its absent-filter default. -/
theorem search_empty_filter_matches_all (dist : List ℚ → List ℚ → ℚ) (t : Table)
    (q : List ℚ) :
    SupabaseDB.search dist t q 5 (some []) = SupabaseDB.search dist t q 5 none := rfl

/-- C7: delete and update on an id with no matching record complete without error
and leave every stored record unchanged. -/
theorem missing_id_noop (t : Table) (id0 : String) (v : List ℚ) (p : Metadata)
    (now : String) (habs : ∀ r ∈ t, r.id ≠ id0) :
    SupabaseDB.delete t id0 = t ∧ SupabaseDB.update t id0 v p now = t := by
  constructor
  · exact List.filter_eq_self.mpr (fun a ha => by simp [habs a ha])
  · show t.map _ = t
    conv_rhs => rw [← List.map_id t]
    exact List.map_congr_left (fun a ha => by simp [habs a ha])

theorem missing_id_noop_witness :
    SupabaseDB.delete [VectorRecord.mk "a" [1] []] "nonexistent" =
      [VectorRecord.mk "a" [1] []] ∧
    SupabaseDB.update [VectorRecord.mk "a" [1] []] "nonexistent" [2]
      [("p", JValue.num 3)] "T" = [VectorRecord.mk "a" [1] []] :=
  missing_id_noop [VectorRecord.mk "a" [1] []] "nonexistent" [2]
    [("p", JValue.num 3)] "T" (by decide)

/-- C6: the list filter is a conjunction of equalities over metadata keys: no
returned record lacks any filtered key/value pair; and after inserting three
records with ids a, b, c and payloads t=x, t=y, t=x into an empty collection,
list with filter t=x returns exactly the records for a and c with total count 2. -/
theorem list_filter_conjunctive_scenario :
    (∀ (t : Table) (fs : Metadata) (L : Nat) (res : VectorStoreResult),
        res ∈ (SupabaseDB.list t (some fs) L).1.1 →
        ∀ kv ∈ fs, lookupKey res.payload kv.1 = some kv.2) ∧
    (∀ (now : String) (t' : Table),
        SupabaseDB.insert [] [[1], [2], [3]] ["a", "b", "c"]
          [[("t", JValue.str "x")], [("t", JValue.str "y")], [("t", JValue.str "x")]]
          now = Except.ok t' →
        (SupabaseDB.list t' (some [("t", JValue.str "x")]) 100).1.1.map
          (fun r => r.id) = ["a", "c"] ∧
        (SupabaseDB.list t' (some [("t", JValue.str "x")]) 100).1.2 = 2) := by
  constructor
  · intro t fs L res hres kv hkv
    obtain ⟨d, hd, hgd⟩ := List.mem_map.mp hres
    have hd' := List.mem_of_mem_take hd
    have hmf : matchesEqFilters fs d.metadata = true := (List.mem_filter.mp hd').2
    have hall := List.all_eq_true.mp hmf kv hkv
    rw [← hgd]
    simpa using hall
  · intro now t' hins
    have e : SupabaseDB.insert [] [[1], [2], [3]] ["a", "b", "c"]
        [[("t", JValue.str "x")], [("t", JValue.str "y")], [("t", JValue.str "x")]]
        now = Except.ok
          [VectorRecord.mk "a" [1] [("t", JValue.str "x"), ("created_at", JValue.str now)],
           VectorRecord.mk "b" [2] [("t", JValue.str "y"), ("created_at", JValue.str now)],
           VectorRecord.mk "c" [3] [("t", JValue.str "x"), ("created_at", JValue.str now)]] :=
      rfl
    rw [e] at hins
    have ht' := Except.ok.inj hins
    rw [← ht']
    exact ⟨rfl, rfl⟩

theorem list_filter_conjunctive_scenario_witness :
    lookupKey (VectorStoreResult.mk "a"
        [("t", JValue.str "x"), ("created_at", JValue.str "T")] none).payload "t" =
      some (JValue.str "x") ∧
    (SupabaseDB.list
        [VectorRecord.mk "a" [1] [("t", JValue.str "x"), ("created_at", JValue.str "T")],
         VectorRecord.mk "b" [2] [("t", JValue.str "y"), ("created_at", JValue.str "T")],
         VectorRecord.mk "c" [3] [("t", JValue.str "x"), ("created_at", JValue.str "T")]]
        (some [("t", JValue.str "x")]) 100).1.1.map (fun r => r.id) = ["a", "c"] :=
  ⟨list_filter_conjunctive_scenario.1
      [VectorRecord.mk "a" [1] [("t", JValue.str "x"), ("created_at", JValue.str "T")]]
      [("t", JValue.str "x")] 100
      (VectorStoreResult.mk "a"
        [("t", JValue.str "x"), ("created_at", JValue.str "T")] none)
      (by decide) ("t", JValue.str "x") (by decide),
   (list_filter_conjunctive_scenario.2 "T"
      [VectorRecord.mk "a" [1] [("t", JValue.str "x"), ("created_at", JValue.str "T")],
       VectorRecord.mk "b" [2] [("t", JValue.str "y"), ("created_at", JValue.str "T")],
       VectorRecord.mk "c" [3] [("t", JValue.str "x"), ("created_at", JValue.str "T")]]
      rfl).1⟩

/-- C8: search returns the ranked rows produced by the backend function mapped
one-to-one into results with order and scores unaltered, at most limit of them;
the similarity scores appear in nonincreasing order (best match first); and an
empty backend state yields the empty sequence rather than an error (reads have no
failure outcome in the model). -/
theorem search_ranked_and_bounded (dist : List ℚ → List ℚ → ℚ) (t : Table)
    (q : List ℚ) (limit : Nat) (filters : Option Metadata) :
    (SupabaseDB.search dist t q limit filters).1.length ≤ limit ∧
    (SupabaseDB.search dist t q limit filters).1 =
      (matchVectors dist t q limit
          ((if filters.isSome then filters else none).getD [])).map
        (fun r => VectorStoreResult.mk r.id r.metadata (some r.similarity)) ∧
    List.Pairwise (fun a b : ℚ => b ≤ a)
      ((SupabaseDB.search dist t q limit filters).1.filterMap (fun r => r.score)) ∧
    (SupabaseDB.search dist [] q limit filters).1 = [] := by
  refine ⟨?_, rfl, ?_, ?_⟩
  · simp [SupabaseDB.search, sbRpcMatchVectors, matchVectors]
  · have hrw : (SupabaseDB.search dist t q limit filters).1.filterMap
        (fun r => r.score) =
        (matchVectors dist t q limit
          ((if filters.isSome then filters else none).getD [])).map
          (fun r => r.similarity) :=
      filterMap_score_map _
    rw [hrw]
    exact matchVectors_similarity_sorted dist t q limit _
  · simp [SupabaseDB.search, sbRpcMatchVectors, matchVectors_nil]

/-- C9: when the sentinel test insert fails, initialization aborts with the
descriptive configuration error, whose message names the vector extension, the
configured table and the match_vectors function; when the test insert succeeds,
the sentinel record is deleted again, so a successful bootstrap leaves the
collection without the sentinel record. -/
theorem initialize_sentinel_spec (tableName : String) (t : Table) :
    (SupabaseDB.initializeAdapter false tableName t =
        Except.error (SupabaseDB.vectorOpsFailedMessage tableName) ∧
      ∃ a b c d : String, SupabaseDB.vectorOpsFailedMessage tableName =
        a ++ "vector extension" ++ b ++ tableName ++ c ++ "match_vectors" ++ d) ∧
    (SupabaseDB.initializeAdapter true tableName t =
        Except.ok (t.filter (fun r => !decide (r.id = "test_vector"))) ∧
      ∀ t', SupabaseDB.initializeAdapter true tableName t = Except.ok t' →
        ∀ r ∈ t', r.id ≠ "test_vector") := by
  have hok : SupabaseDB.initializeAdapter true tableName t =
      Except.ok (t.filter (fun r => !decide (r.id = "test_vector"))) := by
    have h1 : (t.filter (fun r => !decide (r.id = "test_vector"))).any
        (fun s => decide (s.id = "test_vector")) = false := by
      rw [List.any_eq_false]
      intro s hs
      have := (List.mem_filter.mp hs).2
      simpa using this
    simp [SupabaseDB.initializeAdapter, sbInsertRows, sbDeleteEqId,
      SupabaseDB.testRecord, h1, List.filter_append, List.filter_filter]
  refine ⟨⟨rfl, "Vector operations failed. Please ensure:\n1. The ",
      " is enabled\n2. The table \"", "\" exists with correct schema\n3. The ",
      " function is created\n\nRUN THE FOLLOWING SQL IN YOUR SUPABASE SQL EDITOR\n\nSee the SQL migration instructions in the code comments.",
      rfl⟩, hok, ?_⟩
  intro t' ht' r hr
  rw [hok] at ht'
  have := Except.ok.inj ht'
  rw [← this] at hr
  have := (List.mem_filter.mp hr).2
  simpa using this

theorem initialize_sentinel_spec_witness :
    SupabaseDB.initializeAdapter false "memories" [] =
      Except.error (SupabaseDB.vectorOpsFailedMessage "memories") ∧
    ∀ r ∈ ([] : Table), r.id ≠ "test_vector" :=
  ⟨(initialize_sentinel_spec "memories" []).1.1,
   (initialize_sentinel_spec "memories" []).2.2 [] rfl⟩

/-- C10: the read operations search, get and list leave the backend state exactly
as it was: every record, embedding and metadata is unchanged after the call. -/
theorem read_ops_preserve_state (dist : List ℚ → List ℚ → ℚ) (t : Table)
    (q : List ℚ) (limit L : Nat) (filters lfilters : Option Metadata)
    (id0 : String) :
    (SupabaseDB.search dist t q limit filters).2 = t ∧
    (SupabaseDB.get t id0).2 = t ∧
    (SupabaseDB.list t lfilters L).2 = t :=
  ⟨rfl, rfl, rfl⟩

end Mem0Supabase
